import Mathlib

/-!
Verification of the subscription / access-control logic of an e-learning
portal.  The definitions below are shallow embeddings of the application
code (`CourseSubscription.tsx`, `AdminSubscriptionManagement.tsx`,
`CoursePasswordGenerator.tsx`, `VideoPlayer.tsx`, `CourseViewer.tsx`) and of
the SQL migrations (row-level-security policies, column defaults, the
`check_subscription_expiry` function and the `updated_at` triggers).
Tables are modelled as lists of rows, timestamps as integer day numbers
since the Unix epoch, and the JavaScript `Date.setMonth` month arithmetic
is reproduced at day granularity with the standard civil-calendar
conversion algorithms.
-/

namespace LearnLockBox

/-! ## Calendar arithmetic

JavaScript `endDate.setMonth(endDate.getMonth() + k)` decomposes the date
into civil (year, month, day), adds `k` to the month with year carry, and
renormalises a day-of-month overflow into the following month.  We model
timestamps at day granularity: an `Int` counting days since 1970-01-01. -/

/-- Day number since 1970-01-01 of the civil date (y, m, d); a day-of-month
past the end of the month rolls over into the following month, exactly as
JavaScript date normalisation does. -/
def daysFromCivil (y m d : Int) : Int :=
  let y1 := if m ≤ 2 then y - 1 else y
  let era := Int.fdiv y1 400
  let yoe := y1 - era * 400
  let mp := if m > 2 then m - 3 else m + 9
  let doy := Int.fdiv (153 * mp + 2) 5 + d - 1
  let doe := yoe * 365 + Int.fdiv yoe 4 - Int.fdiv yoe 100 + doy
  era * 146097 + doe - 719468

/-- Civil date (year, month, day) of a day number since 1970-01-01. -/
def civilFromDays (z : Int) : Int × Int × Int :=
  let z1 := z + 719468
  let era := Int.fdiv z1 146097
  let doe := z1 - era * 146097
  let yoe := Int.fdiv (doe - Int.fdiv doe 1460 + Int.fdiv doe 36524 - Int.fdiv doe 146096) 365
  let y := yoe + era * 400
  let doy := doe - (365 * yoe + Int.fdiv yoe 4 - Int.fdiv yoe 100)
  let mp := Int.fdiv (5 * doy + 2) 153
  let d := doy - Int.fdiv (153 * mp + 2) 5 + 1
  let m := if mp < 10 then mp + 3 else mp - 9
  (if m ≤ 2 then y + 1 else y, m, d)

/-- Model of the JavaScript idiom `date.setMonth(date.getMonth() + k)`
used throughout the sources to advance a date by `k` calendar months:
the month index is advanced with year carry, the day-of-month kept, and
an overflowing day-of-month rolls into the next month. -/
def addMonths (t : Int) (k : Int) : Int :=
  let c := civilFromDays t
  let y := c.1
  let m := c.2.1
  let d := c.2.2
  let total := y * 12 + (m - 1) + k
  let y2 := Int.fdiv total 12
  let m2 := Int.fmod total 12 + 1
  daysFromCivil y2 m2 d

/-! ## Data model

Rows of the tables created by the migrations, with the fields the verified
operations read or write.  `Option` models SQL NULL. -/

/-- Values of the `subscription_status` enum. -/
inductive SubStatus
  | pending
  | active
  | expired
deriving DecidableEq

/-- Values of the `video_status` enum. -/
inductive VideoStatus
  | processing
  | ready
  | disabled
deriving DecidableEq

/-- Values of the `videos.video_type` column (CHECK constraint: file or url). -/
inductive VideoType
  | file
  | url
deriving DecidableEq

/-- Values of the `app_role` enum. -/
inductive Role
  | admin
  | student
deriving DecidableEq

/-- Row of `public.subscriptions`. -/
structure Subscription where
  id : Nat
  user_id : Nat
  course_id : Nat
  status : SubStatus
  start_date : Option Int
  end_date : Option Int
  payment_proof : Option String
  created_at : Int
  updated_at : Int
deriving DecidableEq

/-- Row of `public.course_passwords`. -/
structure CoursePassword where
  id : Nat
  course_id : Nat
  password : String
  used : Bool
  created_at : Int
  expires_at : Int
deriving DecidableEq

/-- Row of `public.videos` (after the migration that added `video_url` and
`video_type` and made `file_path` nullable). -/
structure Video where
  id : Nat
  title : String
  file_path : Option String
  video_url : Option String
  video_type : VideoType
  status : VideoStatus
  duration_seconds : Option Int
deriving DecidableEq

/-- Row of `public.profiles`, with the fields the policies read. -/
structure Profile where
  user_id : Nat
  email : String
  role : Role
  approved : Bool
deriving DecidableEq

/-- Row of `public.course_videos`. -/
structure CourseVideoRow where
  id : Nat
  course_id : Nat
  video_id : Nat
  order_index : Nat
deriving DecidableEq

/-- Row of `public.courses`, with the fields the verified operations read. -/
structure Course where
  id : Nat
  duration_months : Int
  is_active : Bool
deriving DecidableEq

/-! ## Row-level-security predicates -/

/-- The `is_admin()` SQL function: looks up the role of the caller in
`profiles` (LIMIT 1) and compares it with admin; a missing profile yields
NULL and hence false. -/
def is_admin (profiles : List Profile) (uid : Nat) : Bool :=
  match profiles.find? (fun p => p.user_id == uid) with
  | some p => p.role == Role.admin
  | none => false

/-- SQL comparison `o <= now` under NULL semantics: NULL compares false. -/
def optLe (o : Option Int) (now : Int) : Bool :=
  match o with
  | some x => decide (x ≤ now)
  | none => false

/-- SQL comparison `o >= now` under NULL semantics: NULL compares false. -/
def optGe (o : Option Int) (now : Int) : Bool :=
  match o with
  | some x => decide (now ≤ x)
  | none => false

/-- Body of the EXISTS subquery of the policy "Subscribed users can view
course videos": the subscription row matches the course, belongs to the
caller, is active, and the current time lies inside its window. -/
def subscriptionWindowActive (uid cid : Nat) (now : Int) (s : Subscription) : Bool :=
  s.course_id == cid && s.user_id == uid && s.status == SubStatus.active &&
    optLe s.start_date now && optGe s.end_date now

/-- USING clause of the policy "Subscribed users can view course videos". -/
def courseVideosPolicy (subs : List Subscription) (uid cid : Nat) (now : Int) : Bool :=
  subs.any (subscriptionWindowActive uid cid now)

/-- Rows returned by a student read of `course_videos` filtered to one
course: the query filter composed with the table's permissive SELECT
policies ("Subscribed users can view course videos" OR the admin policy). -/
def fetchCourseVideos (rows : List CourseVideoRow) (subs : List Subscription)
    (profiles : List Profile) (uid cid : Nat) (now : Int) : List CourseVideoRow :=
  rows.filter (fun r =>
    r.course_id == cid &&
      (courseVideosPolicy subs uid r.course_id now || is_admin profiles uid))

/-- USING clause governing SELECT on `videos`: the policy "Approved students
can view ready videos" OR the admin policy. -/
def videoSelectPolicy (profiles : List Profile) (uid : Nat) (v : Video) : Bool :=
  (v.status == VideoStatus.ready &&
    profiles.any (fun p => p.user_id == uid && p.approved)) || is_admin profiles uid

/-- Rows of `videos` visible to the caller under row-level security. -/
def visibleVideos (videos : List Video) (profiles : List Profile) (uid : Nat) : List Video :=
  videos.filter (videoSelectPolicy profiles uid)

/-! ## Operations on subscriptions -/

/-- SQL comparison `s.end_date < now` under NULL semantics. -/
def endDateBefore (s : Subscription) (now : Int) : Bool :=
  match s.end_date with
  | some e => decide (e < now)
  | none => false

/-- The `check_subscription_expiry()` function: UPDATE subscriptions SET
status = expired WHERE status = active AND end_date < now().  The table's
BEFORE UPDATE trigger (`update_subscriptions_updated_at`) sets `updated_at`
to now() on every updated row. -/
def check_subscription_expiry (subs : List Subscription) (now : Int) : List Subscription :=
  subs.map (fun s =>
    if s.status == SubStatus.active && endDateBefore s now then
      { s with status := SubStatus.expired, updated_at := now }
    else s)

/-- The `renewSubscription` handler of the admin subscription panel: the
base date is the subscription's current `end_date` when present, otherwise
a fresh `new Date()`; the chosen number of months is added with `setMonth`,
and the row is updated to the new `end_date` with status active (the
update trigger sets `updated_at`). -/
def renewSubscription (subs : List Subscription) (target : Subscription)
    (months : Int) (now : Int) : List Subscription :=
  let currentEndDate := target.end_date.getD now
  let newEndDate := addMonths currentEndDate months
  subs.map (fun s =>
    if s.id == target.id then
      { s with end_date := some newEndDate, status := SubStatus.active, updated_at := now }
    else s)

/-- Outcome of `approveSubscription`: the subscriptions table and the set of
objects in the payment-receipts storage bucket. -/
structure ApproveOutcome where
  subs : List Subscription
  storage : List String
deriving DecidableEq

/-- The `approveSubscription` handler: updates the row to active with
start_date = now and end_date = now advanced by the course's
`duration_months` via `setMonth`; then, when a `payment_proof` path is
recorded, removes that object from the payment-receipts bucket; finally
updates the row again to clear `payment_proof`.  The update trigger sets
`updated_at` on each update. -/
def approveSubscription (subs : List Subscription) (storage : List String)
    (target : Subscription) (duration_months : Int) (now : Int) : ApproveOutcome :=
  let endDate := addMonths now duration_months
  let subs1 := subs.map (fun s =>
    if s.id == target.id then
      { s with status := SubStatus.active, start_date := some now,
               end_date := some endDate, updated_at := now }
    else s)
  let storage1 := match target.payment_proof with
    | some proofPath => storage.filter (fun q => q != proofPath)
    | none => storage
  let subs2 := subs1.map (fun s =>
    if s.id == target.id then { s with payment_proof := none, updated_at := now } else s)
  ⟨subs2, storage1⟩

/-! ## Password redemption -/

/-- Model of the JavaScript `String.prototype.trim`: whitespace stripped
from both ends. -/
def jsTrim (s : String) : String :=
  ⟨((s.data.dropWhile Char.isWhitespace).reverse.dropWhile Char.isWhitespace).reverse⟩

/-- The `.single()` modifier of the client: the query succeeds exactly when
one row matches, and errors on zero or several rows. -/
def singleRow {α : Type} (l : List α) : Option α :=
  match l with
  | [a] => some a
  | _ => none

/-- The password lookup of `handlePasswordSubscription`: select from
`course_passwords` where course_id matches, password equals the trimmed
input, used = false and expires_at > now, with `.single()`. -/
def lookupPassword (pwds : List CoursePassword) (cid : Nat) (input : String)
    (now : Int) : Option CoursePassword :=
  singleRow (pwds.filter (fun p =>
    p.course_id == cid && p.password == jsTrim input &&
      p.used == false && decide (now < p.expires_at)))

/-- Whether a subscription row belongs to the (user, course) pair, the
unique key of the `subscriptions` table. -/
def subscriptionKey (uid cid : Nat) (s : Subscription) : Bool :=
  s.user_id == uid && s.course_id == cid

/-- The row inserted by the subscription upsert when no conflicting row
exists: the supplied columns plus the column defaults. -/
def freshSubscription (freshId uid cid : Nat) (st : SubStatus) (sd ed : Option Int)
    (now : Int) : Subscription :=
  { id := freshId, user_id := uid, course_id := cid, status := st,
    start_date := sd, end_date := ed, payment_proof := none,
    created_at := now, updated_at := now }

/-- Overwriting the columns supplied by the subscription upsert on a
conflicting row; the update trigger sets `updated_at`. -/
def applySubUpdate (st : SubStatus) (sd ed : Option Int) (now : Int)
    (s : Subscription) : Subscription :=
  { s with status := st, start_date := sd, end_date := ed, updated_at := now }

/-- The client `upsert` on `subscriptions`, resolved on the table's
UNIQUE(user_id, course_id) key: the supplied columns overwrite those of a
conflicting row, otherwise a fresh row is inserted. -/
def upsertSubscription (subs : List Subscription) (freshId uid cid : Nat)
    (st : SubStatus) (sd ed : Option Int) (now : Int) : List Subscription :=
  if subs.any (subscriptionKey uid cid) then
    subs.map (fun s => if subscriptionKey uid cid s then applySubUpdate st sd ed now s else s)
  else
    subs ++ [freshSubscription freshId uid cid st sd ed now]

/-- Marking a course password used: UPDATE course_passwords SET used = true
WHERE id = pid. -/
def markUsed (pwds : List CoursePassword) (pid : Nat) : List CoursePassword :=
  pwds.map (fun q => if q.id == pid then { q with used := true } else q)

/-- User-visible outcome of `handlePasswordSubscription`: the success toast,
the invalid-or-expired toast, or the activation-failure toast raised by the
catch block. -/
inductive SubscribeResult
  | success
  | invalidOrExpired
  | activationFailed
deriving DecidableEq

/-- Final state after `handlePasswordSubscription`. -/
structure SubscribeOutcome where
  result : SubscribeResult
  pwds : List CoursePassword
  subs : List Subscription
deriving DecidableEq

/-- The `handlePasswordSubscription` handler.  The two Booleans inject the
possible backend failures of the two writes: when the subscription upsert
fails the thrown error is caught, the failure toast shown and neither
table changed; when the upsert succeeds the mark-used update is issued but
its error is never inspected, so a failing mark-used write leaves the
password row unchanged while the success toast is still shown. -/
def handlePasswordSubscription (pwds : List CoursePassword) (subs : List Subscription)
    (uid freshId : Nat) (course : Course) (input : String) (now : Int)
    (upsertFails markUsedFails : Bool) : SubscribeOutcome :=
  match lookupPassword pwds course.id input now with
  | none => ⟨SubscribeResult.invalidOrExpired, pwds, subs⟩
  | some p =>
    if upsertFails then ⟨SubscribeResult.activationFailed, pwds, subs⟩
    else
      let subs2 := upsertSubscription subs freshId uid course.id SubStatus.active
        (some now) (some (addMonths now course.duration_months)) now
      let pwds2 := if markUsedFails then pwds else markUsed pwds p.id
      ⟨SubscribeResult.success, pwds2, subs2⟩

/-- The subscription row of a (user, course) pair, when one exists. -/
def getSubscription (subs : List Subscription) (uid cid : Nat) : Option Subscription :=
  subs.find? (subscriptionKey uid cid)

/-! ## Video resolution -/

/-- A time-limited signed URL for a private storage object. -/
structure SignedUrl where
  path : String
  expiresIn : Nat
deriving DecidableEq

/-- The storage `createSignedUrl(path, expiresIn)` call: succeeds when the
path names an existing object; a NULL path (as stored for external-URL
videos) has no object and errors. -/
def createSignedUrl (storage : List String) (path : Option String)
    (expiresIn : Nat) : Option SignedUrl :=
  match path with
  | some p => if storage.contains p then some ⟨p, expiresIn⟩ else none
  | none => none

/-- The video query of `VideoPlayer.fetchVideo`: select from `videos` where
id matches and status = ready with `.single()`, evaluated on the rows the
row-level-security policies expose to the caller. -/
def fetchVideoRow (videos : List Video) (profiles : List Profile)
    (uid vid : Nat) : Option Video :=
  singleRow ((visibleVideos videos profiles uid).filter
    (fun v => v.id == vid && v.status == VideoStatus.ready))

/-- The whole `VideoPlayer.fetchVideo` resolver: fetch the video row, then
request a signed URL for its `file_path` with a 3600-second expiry.  The
code performs this storage call for every video, without inspecting
`video_type`, and never reads `video_url`. -/
def fetchVideo (videos : List Video) (profiles : List Profile)
    (storage : List String) (uid vid : Nat) : Option (Video × SignedUrl) :=
  match fetchVideoRow videos profiles uid vid with
  | none => none
  | some v =>
    match createSignedUrl storage v.file_path 3600 with
    | none => none
    | some u => some (v, u)

/-! ## Password minting -/

/-- The character pool of the admin password generator. -/
def passwordChars : String := "ABCDEFGHIJKLMNOPQRSTUVWXYZ0123456789"

/-- Model of the JavaScript `s.charAt(i)`: the one-character string at
index `i`, or the empty string out of range. -/
def jsCharAt (s : String) (i : Nat) : List Char :=
  match s.data.get? i with
  | some c => [c]
  | none => []

/-- The `generateRandomPassword` helper: eight draws from the pool, each
indexed by `Math.floor(Math.random() * chars.length)`, modelled by the
supplied draw function `rand`. -/
def generateRandomPassword (rand : Nat → Nat) : String :=
  ⟨((List.range 8).map (fun i => jsCharAt passwordChars (rand i))).flatten⟩

/-- The `createPassword` handler of the admin generator: the inserted row
carries only course_id and the password (the custom one when non-empty,
else a generated one); the column defaults of the migration supply
used = false, created_at = now() and expires_at = now() + interval
7 days. -/
def createPassword (pwds : List CoursePassword) (freshId cid : Nat)
    (customPassword : String) (rand : Nat → Nat) (now : Int) : List CoursePassword :=
  let password := if customPassword == "" then generateRandomPassword rand else customPassword
  pwds ++ [{ id := freshId, course_id := cid, password := password,
             used := false, created_at := now, expires_at := now + 7 }]

/-! ## Helper lemmas -/

/-- A row produced by `.single()` is a row of the underlying result set. -/
theorem singleRow_mem {α : Type} {l : List α} {a : α} (h : singleRow l = some a) : a ∈ l := by
  unfold singleRow at h
  match l, h with
  | [b], h =>
    simp only [Option.some.injEq] at h
    simp [h]

/-- A successful password lookup returns a row of the table that satisfies
the query filter. -/
theorem lookupPassword_spec {pwds : List CoursePassword} {cid : Nat} {input : String}
    {now : Int} {p : CoursePassword} (h : lookupPassword pwds cid input now = some p) :
    p ∈ pwds ∧ p.course_id = cid ∧ p.password = jsTrim input ∧
      p.used = false ∧ now < p.expires_at := by
  unfold lookupPassword at h
  have hmem := singleRow_mem h
  rw [List.mem_filter] at hmem
  obtain ⟨hp, hcond⟩ := hmem
  simp only [Bool.and_eq_true, beq_iff_eq, decide_eq_true_eq] at hcond
  exact ⟨hp, hcond.1.1.1, hcond.1.1.2, hcond.1.2, hcond.2⟩

/-- Searching a list after a keyed conditional update: the first row
matching the key is returned updated, provided the update preserves the
key. -/
theorem find?_map_keyed {α : Type} (l : List α) (key : α → Bool) (g : α → α)
    (hg : ∀ a, key (g a) = key a) :
    (l.map (fun a => if key a then g a else a)).find? key = (l.find? key).map g := by
  induction l with
  | nil => rfl
  | cons a t ih =>
    by_cases h : key a = true
    · simp [List.find?_cons, h, hg]
    · have h' : key a = false := by simp [h]
      simp [List.find?_cons, h', ih]

/-- Searching past a prefix in which nothing matches. -/
theorem find?_append_of_none {α : Type} {l₁ : List α} (l₂ : List α) {key : α → Bool}
    (h : l₁.find? key = none) : (l₁ ++ l₂).find? key = l₂.find? key := by
  induction l₁ with
  | nil => rfl
  | cons a t ih =>
    rw [List.find?_cons] at h
    by_cases ha : key a = true
    · simp [ha] at h
    · have ha' : key a = false := by simp [ha]
      simp only [ha'] at h
      simp [List.find?_cons, ha', ih h]

/-! ## Demonstration data used by witnesses and counterexamples -/

/-- A course of one month duration. -/
def demoCourse : Course := { id := 20, duration_months := 1, is_active := true }

/-- An unused course password valid until day 10. -/
def demoPwd : CoursePassword :=
  { id := 3, course_id := 20, password := "PW1", used := false,
    created_at := 0, expires_at := 10 }

/-- A password already expired at day 5. -/
def expiredPwd : CoursePassword :=
  { id := 4, course_id := 20, password := "PW2", used := false,
    created_at := 0, expires_at := 3 }

/-- A password already consumed. -/
def usedPwd : CoursePassword :=
  { id := 5, course_id := 20, password := "PW3", used := true,
    created_at := 0, expires_at := 10 }

/-- An approved student profile. -/
def demoProfiles : List Profile :=
  [{ user_id := 7, email := "student", role := Role.student, approved := true }]

/-- A ready video backed by an external link: no stored file, only a URL. -/
def externalVideo : Video :=
  { id := 1, title := "external", file_path := none,
    video_url := some "https://example.com/lecture.mp4", video_type := VideoType.url,
    status := VideoStatus.ready, duration_seconds := none }

/-- A ready video backed by an uploaded file. -/
def uploadedVideo : Video :=
  { id := 2, title := "uploaded", file_path := some "videos/lecture.mp4",
    video_url := none, video_type := VideoType.file,
    status := VideoStatus.ready, duration_seconds := some 60 }

/-- A subscription whose end_date (day 0) lies well before the renewal
time (day 365). -/
def renewDemoTarget : Subscription :=
  { id := 1, user_id := 10, course_id := 20, status := SubStatus.expired,
    start_date := some 0, end_date := some 0, payment_proof := none,
    created_at := 0, updated_at := 0 }

/-- The row `renewSubscription` produces from `renewDemoTarget` with one
month at day 365. -/
def renewDemoRow : Subscription :=
  { id := 1, user_id := 10, course_id := 20, status := SubStatus.active,
    start_date := some 0, end_date := some 31, payment_proof := none,
    created_at := 0, updated_at := 365 }

/-- An active subscription lapsed at day 5 (end_date 1), updated_at 0. -/
def sweepDemoRow : Subscription :=
  { id := 1, user_id := 10, course_id := 20, status := SubStatus.active,
    start_date := some 0, end_date := some 1, payment_proof := none,
    created_at := 0, updated_at := 0 }

/-! ## Claims -/

/-- Claim C2 counterexample: at an explicit input with stale end_date day 0
and now day 365, one month of renewal yields end_date day 31 (one month
after the stale date), not one month after `max now end_date` (day 396) as
the claim states. -/
theorem renew_max_claim_counterexample :
    (renewSubscription [renewDemoTarget] renewDemoTarget 1 365).map
        (fun s => s.end_date) = [some (addMonths 0 1)] ∧
      addMonths 0 1 = 31 ∧ addMonths (max (365 : Int) 0) 1 = 396 ∧
      ¬((renewSubscription [renewDemoTarget] renewDemoTarget 1 365).map
          (fun s => s.end_date) = [some (addMonths (max (365 : Int) 0) 1)]) := by
  decide

/-- Claim C2 (amended): `renewSubscription` sets the row to active with the
new end_date equal to the chosen number of months after the stored current
end_date when it is non-null, and after now only when it is null; it never
compares the stored end_date with now.  All other rows are unchanged. -/
theorem renew_extends_from_stored_end (subs : List Subscription) (target : Subscription)
    (months now : Int) :
    (∀ s ∈ renewSubscription subs target months now, s.id = target.id →
       s.status = SubStatus.active ∧
       s.end_date = some (addMonths (target.end_date.getD now) months)) ∧
    (∀ s ∈ subs, s.id ≠ target.id → s ∈ renewSubscription subs target months now) := by
  constructor
  · intro s hs hid
    unfold renewSubscription at hs
    rw [List.mem_map] at hs
    obtain ⟨s0, hs0, heq⟩ := hs
    by_cases h : s0.id = target.id
    · have hb : (s0.id == target.id) = true := by simp [h]
      simp only [hb, if_true] at heq
      constructor <;> simp [← heq]
    · have hb : (s0.id == target.id) = false := by simp [h]
      simp only [hb, Bool.false_eq_true, if_false] at heq
      subst heq
      exact absurd hid h
  · intro s hs hne
    unfold renewSubscription
    rw [List.mem_map]
    refine ⟨s, hs, ?_⟩
    have hb : (s.id == target.id) = false := by simp [hne]
    simp [hb]

/-- Witness for the amended claim C2 at a concrete input. -/
theorem renew_extends_from_stored_end_witness :
    renewDemoRow.status = SubStatus.active ∧
      renewDemoRow.end_date = some (addMonths (renewDemoTarget.end_date.getD 365) 1) :=
  (renew_extends_from_stored_end [renewDemoTarget] renewDemoTarget 1 365).1
    renewDemoRow (by decide) (by decide)

/-- Whether a course-password row matches the course and the entered
password, disregarding `used` and `expires_at`. -/
def matchesCoursePassword (cid : Nat) (input : String) (p : CoursePassword) : Bool :=
  p.course_id == cid && p.password == jsTrim input

/-- Claim C4: when every course-password row matching the course and
entered password is already used or already expired (in particular when an
expired password is redeemed regardless of its used flag, or an already
used one a second time), `handlePasswordSubscription` reports
invalid-or-expired and leaves both tables unchanged. -/
theorem password_redemption_rejects_invalid_or_expired (pwds : List CoursePassword)
    (subs : List Subscription) (uid freshId : Nat) (course : Course) (input : String)
    (now : Int) (upsertFails markUsedFails : Bool)
    (hall : ∀ p ∈ pwds, matchesCoursePassword course.id input p = true →
      p.used = true ∨ p.expires_at ≤ now) :
    handlePasswordSubscription pwds subs uid freshId course input now upsertFails markUsedFails =
      ⟨SubscribeResult.invalidOrExpired, pwds, subs⟩ := by
  have hnil : pwds.filter (fun p =>
      p.course_id == course.id && p.password == jsTrim input &&
        p.used == false && decide (now < p.expires_at)) = [] := by
    rw [List.filter_eq_nil_iff]
    intro p hp hcond
    simp only [Bool.and_eq_true, beq_iff_eq, decide_eq_true_eq] at hcond
    have hm : matchesCoursePassword course.id input p = true := by
      simp [matchesCoursePassword, hcond.1.1.1, hcond.1.1.2]
    rcases hall p hp hm with hused | hexp
    · exact absurd hcond.1.2 (by simp [hused])
    · exact absurd hcond.2 (by omega)
  unfold handlePasswordSubscription lookupPassword
  rw [hnil]
  rfl

/-- Witness for claim C4: redeeming an expired password (with an already
used one also present) is rejected and changes nothing. -/
theorem password_redemption_rejects_invalid_or_expired_witness :
    handlePasswordSubscription [expiredPwd, usedPwd] [] 7 99 demoCourse "PW2" 5 false false =
      ⟨SubscribeResult.invalidOrExpired, [expiredPwd, usedPwd], []⟩ :=
  password_redemption_rejects_invalid_or_expired [expiredPwd, usedPwd] [] 7 99
    demoCourse "PW2" 5 false false (by decide)

/-- Claim C9: the mark-used write is issued only after a successful upsert.
A failing upsert is caught: the failure toast is shown and both tables are
left unchanged, the password still unused.  A failing mark-used write is
never inspected: the success toast is still shown with the password row
unchanged. -/
theorem mark_used_only_after_upsert (pwds : List CoursePassword) (subs : List Subscription)
    (uid freshId : Nat) (course : Course) (input : String) (now : Int)
    (markUsedFails : Bool) (p : CoursePassword)
    (hlookup : lookupPassword pwds course.id input now = some p) :
    handlePasswordSubscription pwds subs uid freshId course input now true markUsedFails =
      ⟨SubscribeResult.activationFailed, pwds, subs⟩ ∧
    (handlePasswordSubscription pwds subs uid freshId course input now false true).result =
      SubscribeResult.success ∧
    (handlePasswordSubscription pwds subs uid freshId course input now false true).pwds =
      pwds := by
  unfold handlePasswordSubscription
  rw [hlookup]
  exact ⟨rfl, rfl, rfl⟩

/-- Witness for claim C9 at a concrete input. -/
theorem mark_used_only_after_upsert_witness :
    handlePasswordSubscription [demoPwd] [] 7 99 demoCourse "PW1" 5 true false =
      ⟨SubscribeResult.activationFailed, [demoPwd], []⟩ ∧
    (handlePasswordSubscription [demoPwd] [] 7 99 demoCourse "PW1" 5 false true).pwds =
      [demoPwd] := by
  have h := mark_used_only_after_upsert [demoPwd] [] 7 99 demoCourse "PW1" 5 false demoPwd
    (by decide)
  exact ⟨h.1, h.2.2⟩

/-- Claim C5 counterexample: the sweep does not leave every other field of
the flipped rows unchanged: the `update_subscriptions_updated_at` trigger
rewrites `updated_at` on each updated row. -/
theorem expiry_sweep_updated_at_counterexample :
    (check_subscription_expiry [sweepDemoRow] 5).map (fun s => s.status) =
        [SubStatus.expired] ∧
      (check_subscription_expiry [sweepDemoRow] 5).map (fun s => s.updated_at) ≠
        [sweepDemoRow.updated_at] := by
  decide

/-- Claim C5 (amended): the sweep flips to expired exactly the active rows
whose end_date lies before now; every other row is entirely unchanged, and
on the flipped rows only `status` and `updated_at` change, the latter set
to now by the table's update trigger. -/
theorem expiry_sweep_flips_exactly_lapsed_active (subs : List Subscription) (now : Int) :
    (∀ s ∈ subs, s.status = SubStatus.active → endDateBefore s now = true →
       { s with status := SubStatus.expired, updated_at := now } ∈
         check_subscription_expiry subs now) ∧
    (∀ s ∈ subs, ¬(s.status = SubStatus.active ∧ endDateBefore s now = true) →
       s ∈ check_subscription_expiry subs now) ∧
    (∀ t ∈ check_subscription_expiry subs now,
       t ∈ subs ∨ ∃ s ∈ subs, s.status = SubStatus.active ∧ endDateBefore s now = true ∧
         t = { s with status := SubStatus.expired, updated_at := now }) := by
  refine ⟨?_, ?_, ?_⟩
  · intro s hs hst hend
    unfold check_subscription_expiry
    rw [List.mem_map]
    refine ⟨s, hs, ?_⟩
    simp [hst, hend]
  · intro s hs hcond
    unfold check_subscription_expiry
    rw [List.mem_map]
    refine ⟨s, hs, ?_⟩
    by_cases h1 : s.status = SubStatus.active
    · by_cases h2 : endDateBefore s now = true
      · exact absurd ⟨h1, h2⟩ hcond
      · simp [h2]
    · have hb : (s.status == SubStatus.active) = false := by simp [h1]
      simp [hb]
  · intro t ht
    unfold check_subscription_expiry at ht
    rw [List.mem_map] at ht
    obtain ⟨s, hs, heq⟩ := ht
    by_cases h : (s.status == SubStatus.active && endDateBefore s now) = true
    · right
      rw [Bool.and_eq_true, beq_iff_eq] at h
      refine ⟨s, hs, h.1, h.2, ?_⟩
      rw [← heq]
      simp [h.1, h.2]
    · left
      have hb : (s.status == SubStatus.active && endDateBefore s now) = false := by
        simp only [Bool.not_eq_true] at h
        exact h
      rw [hb] at heq
      simp only [Bool.false_eq_true, if_false] at heq
      rw [← heq]
      exact hs

/-- Witness for the amended claim C5 at a concrete input. -/
theorem expiry_sweep_flips_exactly_lapsed_active_witness :
    { sweepDemoRow with status := SubStatus.expired, updated_at := (5 : Int) } ∈
      check_subscription_expiry [sweepDemoRow] 5 :=
  (expiry_sweep_flips_exactly_lapsed_active [sweepDemoRow] 5).1 sweepDemoRow
    (by decide) (by decide) (by decide)

/-- Claim C7 (code bug evaluation): the resolver signs the stored
`file_path` with a 3600-second expiry for an uploaded video, but for an
external-URL video (ready, with a stored `video_url` and NULL `file_path`)
it still attempts the signature, never returning the stored URL, and
playback resolution fails. -/
theorem video_resolver_never_returns_external_url :
    fetchVideo [uploadedVideo] demoProfiles ["videos/lecture.mp4"] 7 2 =
        some (uploadedVideo, { path := "videos/lecture.mp4", expiresIn := 3600 }) ∧
      externalVideo.video_type = VideoType.url ∧
      externalVideo.status = VideoStatus.ready ∧
      externalVideo.video_url = some "https://example.com/lecture.mp4" ∧
      fetchVideo [externalVideo] demoProfiles ["videos/lecture.mp4"] 7 1 = none := by
  decide

/-- Claim C8: under the row-level-security policies a non-admin caller only
ever receives ready videos, both from a bare select and from the
video-player fetch; processing or disabled videos are never returned. -/
theorem student_video_reads_only_ready (videos : List Video) (profiles : List Profile)
    (uid vid : Nat) (hstudent : is_admin profiles uid = false) :
    (∀ v ∈ visibleVideos videos profiles uid, v.status = VideoStatus.ready) ∧
    (∀ v, fetchVideoRow videos profiles uid vid = some v → v.status = VideoStatus.ready) := by
  have hvis : ∀ v ∈ visibleVideos videos profiles uid, v.status = VideoStatus.ready := by
    intro v hv
    unfold visibleVideos at hv
    rw [List.mem_filter] at hv
    obtain ⟨_, hpol⟩ := hv
    unfold videoSelectPolicy at hpol
    rw [hstudent] at hpol
    simp only [Bool.or_false, Bool.and_eq_true, beq_iff_eq] at hpol
    exact hpol.1
  refine ⟨hvis, ?_⟩
  intro v hv
  unfold fetchVideoRow at hv
  have hmem := singleRow_mem hv
  rw [List.mem_filter] at hmem
  exact hvis v hmem.1

/-- Witness for claim C8 at a concrete input. -/
theorem student_video_reads_only_ready_witness :
    is_admin demoProfiles 7 = false ∧ uploadedVideo.status = VideoStatus.ready :=
  ⟨by decide,
    (student_video_reads_only_ready [uploadedVideo] demoProfiles 7 2 (by decide)).1
      uploadedVideo (by decide)⟩

/-- Unfolding of the access-window predicate into its propositional form,
with SQL NULL comparisons made explicit. -/
theorem subscriptionWindowActive_iff (uid cid : Nat) (now : Int) (s : Subscription) :
    subscriptionWindowActive uid cid now s = true ↔
      s.user_id = uid ∧ s.course_id = cid ∧ s.status = SubStatus.active ∧
        ∃ sd ed, s.start_date = some sd ∧ s.end_date = some ed ∧ sd ≤ now ∧ now ≤ ed := by
  unfold subscriptionWindowActive optLe optGe
  cases hsd : s.start_date with
  | none => simp [hsd]
  | some sd =>
    cases hed : s.end_date with
    | none => simp [hsd, hed]
    | some ed =>
      simp only [hsd, hed, Bool.and_eq_true, beq_iff_eq, decide_eq_true_eq,
        Option.some.injEq]
      constructor
      · rintro ⟨⟨⟨⟨hc, hu⟩, hst⟩, h1⟩, h2⟩
        exact ⟨hu, hc, hst, sd, ed, rfl, rfl, h1, h2⟩
      · rintro ⟨hu, hc, hst, sd2, ed2, hsd2, hed2, h1, h2⟩
        cases hsd2
        cases hed2
        exact ⟨⟨⟨⟨hc, hu⟩, hst⟩, h1⟩, h2⟩

/-- Claim C1: for a non-admin caller the course_videos read returns exactly
the rows of the requested course when an active subscription of that user
for that course has the current time inside [start_date, end_date], and no
rows otherwise; the gating predicate holds precisely when such a
subscription row exists. -/
theorem course_video_read_iff_active_window (rows : List CourseVideoRow)
    (subs : List Subscription) (profiles : List Profile) (uid cid : Nat) (now : Int)
    (hstudent : is_admin profiles uid = false) :
    (courseVideosPolicy subs uid cid now = true ↔
       ∃ s ∈ subs, s.user_id = uid ∧ s.course_id = cid ∧ s.status = SubStatus.active ∧
         ∃ sd ed, s.start_date = some sd ∧ s.end_date = some ed ∧ sd ≤ now ∧ now ≤ ed) ∧
    fetchCourseVideos rows subs profiles uid cid now =
      (if courseVideosPolicy subs uid cid now = true then
        rows.filter (fun r => r.course_id == cid) else []) := by
  constructor
  · unfold courseVideosPolicy
    rw [List.any_eq_true]
    constructor
    · rintro ⟨s, hs, hact⟩
      exact ⟨s, hs, (subscriptionWindowActive_iff uid cid now s).mp hact⟩
    · rintro ⟨s, hs, hprop⟩
      exact ⟨s, hs, (subscriptionWindowActive_iff uid cid now s).mpr hprop⟩
  · by_cases hpol : courseVideosPolicy subs uid cid now = true
    · rw [if_pos hpol]
      unfold fetchCourseVideos
      have hfun : (fun r : CourseVideoRow =>
          r.course_id == cid &&
            (courseVideosPolicy subs uid r.course_id now || is_admin profiles uid)) =
          (fun r : CourseVideoRow => r.course_id == cid) := by
        funext r
        by_cases hc : r.course_id = cid
        · have hb : (r.course_id == cid) = true := by simp [hc]
          rw [hb, hc, hpol, hstudent]
          rfl
        · have hb : (r.course_id == cid) = false := by simp [hc]
          rw [hb]
          rfl
      rw [hfun]
    · rw [if_neg hpol]
      unfold fetchCourseVideos
      rw [List.filter_eq_nil_iff]
      intro r _ hcond
      rw [Bool.and_eq_true] at hcond
      obtain ⟨hc, hrest⟩ := hcond
      have hcc : r.course_id = cid := by simpa using hc
      rw [hcc] at hrest
      rw [Bool.or_eq_true] at hrest
      rcases hrest with h1 | h2
      · exact hpol h1
      · rw [hstudent] at h2
        exact Bool.false_ne_true h2

/-- An active subscription of user 7 for course 20 covering day 5. -/
def windowSub : Subscription :=
  { id := 2, user_id := 7, course_id := 20, status := SubStatus.active,
    start_date := some 0, end_date := some 10, payment_proof := none,
    created_at := 0, updated_at := 0 }

/-- A one-element playlist of course 20. -/
def demoRows : List CourseVideoRow :=
  [{ id := 1, course_id := 20, video_id := 2, order_index := 0 }]

/-- Witness for claim C1 at a concrete input. -/
theorem course_video_read_iff_active_window_witness :
    is_admin demoProfiles 7 = false ∧
      courseVideosPolicy [windowSub] 7 20 5 = true ∧
      fetchCourseVideos demoRows [windowSub] demoProfiles 7 20 5 =
        (if courseVideosPolicy [windowSub] 7 20 5 = true then
          demoRows.filter (fun r => r.course_id == 20) else []) := by
  have h := course_video_read_iff_active_window demoRows [windowSub] demoProfiles 7 20 5
    (by decide)
  refine ⟨by decide, ?_, h.2⟩
  exact h.1.mpr ⟨windowSub, by decide, rfl, rfl, rfl, 0, 10, rfl, rfl, by decide, by decide⟩

/-- Claim C6: approving a subscription whose row carries a payment proof
sets it active with start_date = now and end_date the course duration in
months after now, removes the receipt object from storage, clears
payment_proof, and touches nothing else. -/
theorem approve_activates_and_clears_receipt (subs : List Subscription)
    (storage : List String) (target : Subscription) (duration_months now : Int)
    (proofPath : String) (hproof : target.payment_proof = some proofPath) :
    (∀ s ∈ (approveSubscription subs storage target duration_months now).subs,
       s.id = target.id →
         s.status = SubStatus.active ∧ s.start_date = some now ∧
           s.end_date = some (addMonths now duration_months) ∧ s.payment_proof = none) ∧
    proofPath ∉ (approveSubscription subs storage target duration_months now).storage ∧
    (∀ s ∈ subs, s.id ≠ target.id →
       s ∈ (approveSubscription subs storage target duration_months now).subs) ∧
    (∀ q ∈ storage, q ≠ proofPath →
       q ∈ (approveSubscription subs storage target duration_months now).storage) := by
  simp only [approveSubscription, hproof]
  refine ⟨?_, ?_, ?_, ?_⟩
  · intro s hs hid
    rw [List.mem_map] at hs
    obtain ⟨s1, hs1, heq1⟩ := hs
    rw [List.mem_map] at hs1
    obtain ⟨s0, hs0, heq0⟩ := hs1
    by_cases h : s0.id = target.id
    · have hb : (s0.id == target.id) = true := by simp [h]
      simp only [hb, if_true] at heq0
      have hb1 : (s1.id == target.id) = true := by rw [← heq0]; simp [h]
      simp only [hb1, if_true] at heq1
      rw [← heq1]
      rw [← heq0]
      exact ⟨rfl, rfl, rfl, rfl⟩
    · have hb : (s0.id == target.id) = false := by simp [h]
      simp only [hb, Bool.false_eq_true, if_false] at heq0
      subst heq0
      simp only [hb, Bool.false_eq_true, if_false] at heq1
      subst heq1
      exact absurd hid h
  · intro hmem
    rw [List.mem_filter] at hmem
    have h2 := hmem.2
    simp at h2
  · intro s hs hne
    have hb : (s.id == target.id) = false := by simp [hne]
    rw [List.mem_map]
    refine ⟨s, ?_, by simp [hb]⟩
    rw [List.mem_map]
    exact ⟨s, hs, by simp [hb]⟩
  · intro q hq hne
    rw [List.mem_filter]
    exact ⟨hq, by simp [hne]⟩

/-- A pending subscription with an uploaded receipt. -/
def approveDemoTarget : Subscription :=
  { id := 6, user_id := 7, course_id := 20, status := SubStatus.pending,
    start_date := none, end_date := none, payment_proof := some "receipts/7.png",
    created_at := 0, updated_at := 0 }

/-- The row approval produces from `approveDemoTarget` at day 5 for one
month: end_date day 36 (1970-02-06). -/
def approveDemoRow : Subscription :=
  { id := 6, user_id := 7, course_id := 20, status := SubStatus.active,
    start_date := some 5, end_date := some 36, payment_proof := none,
    created_at := 0, updated_at := 5 }

/-- Witness for claim C6 at a concrete input. -/
theorem approve_activates_and_clears_receipt_witness :
    approveDemoRow.status = SubStatus.active ∧ approveDemoRow.start_date = some 5 ∧
      approveDemoRow.payment_proof = none := by
  have h := approve_activates_and_clears_receipt [approveDemoTarget] ["receipts/7.png"]
    approveDemoTarget 1 5 "receipts/7.png" (by decide)
  have h1 := h.1 approveDemoRow (by decide) (by decide)
  exact ⟨h1.1, h1.2.1, h1.2.2.2⟩

/-- Claim C3: with a matching unused, unexpired password row found and the
backend writes succeeding, password redemption reports success, the (user,
course) subscription row ends active with start_date = now and end_date
the course duration in months after now, the password row is marked used,
and every other password row is untouched. -/
theorem password_redemption_activates_and_marks_used (pwds : List CoursePassword)
    (subs : List Subscription) (uid freshId : Nat) (course : Course) (input : String)
    (now : Int) (p : CoursePassword)
    (hlookup : lookupPassword pwds course.id input now = some p) :
    (handlePasswordSubscription pwds subs uid freshId course input now false false).result =
      SubscribeResult.success ∧
    (∃ s, getSubscription
        (handlePasswordSubscription pwds subs uid freshId course input now false false).subs
        uid course.id = some s ∧
      s.status = SubStatus.active ∧ s.start_date = some now ∧
        s.end_date = some (addMonths now course.duration_months)) ∧
    { p with used := true } ∈
      (handlePasswordSubscription pwds subs uid freshId course input now false false).pwds ∧
    (∀ q ∈ pwds, q.id ≠ p.id →
       q ∈ (handlePasswordSubscription pwds subs uid freshId course input now false false).pwds) := by
  have hred : handlePasswordSubscription pwds subs uid freshId course input now false false =
      ⟨SubscribeResult.success, markUsed pwds p.id,
        upsertSubscription subs freshId uid course.id SubStatus.active (some now)
          (some (addMonths now course.duration_months)) now⟩ := by
    unfold handlePasswordSubscription
    rw [hlookup]
    rfl
  rw [hred]
  dsimp only
  refine ⟨rfl, ?_, ?_, ?_⟩
  · unfold getSubscription upsertSubscription
    by_cases hany : subs.any (subscriptionKey uid course.id) = true
    · rw [if_pos hany]
      rw [find?_map_keyed subs (subscriptionKey uid course.id)
        (applySubUpdate SubStatus.active (some now)
          (some (addMonths now course.duration_months)) now)
        (fun _ => rfl)]
      have hsome : ∃ s, subs.find? (subscriptionKey uid course.id) = some s := by
        rw [List.any_eq_true] at hany
        obtain ⟨s0, hs0, hkey⟩ := hany
        rcases hfind : subs.find? (subscriptionKey uid course.id) with _ | s
        · rw [List.find?_eq_none] at hfind
          exact absurd hkey (hfind s0 hs0)
        · exact ⟨s, rfl⟩
      obtain ⟨s, hfind⟩ := hsome
      rw [hfind]
      exact ⟨_, rfl, rfl, rfl, rfl⟩
    · rw [if_neg hany]
      have hnone : subs.find? (subscriptionKey uid course.id) = none := by
        rw [List.find?_eq_none]
        intro x hx hkey
        exact hany (List.any_eq_true.mpr ⟨x, hx, hkey⟩)
      rw [find?_append_of_none _ hnone]
      refine ⟨freshSubscription freshId uid course.id SubStatus.active (some now)
        (some (addMonths now course.duration_months)) now, ?_, rfl, rfl, rfl⟩
      simp [List.find?_cons, subscriptionKey, freshSubscription]
  · have hp := (lookupPassword_spec hlookup).1
    unfold markUsed
    rw [List.mem_map]
    exact ⟨p, hp, by simp⟩
  · intro q hq hne
    unfold markUsed
    rw [List.mem_map]
    refine ⟨q, hq, ?_⟩
    have hb : (q.id == p.id) = false := by simp [hne]
    simp [hb]

/-- Witness for claim C3 at a concrete input. -/
theorem password_redemption_activates_and_marks_used_witness :
    (handlePasswordSubscription [demoPwd] [] 7 99 demoCourse "PW1" 5 false false).result =
      SubscribeResult.success ∧
    { demoPwd with used := true } ∈
      (handlePasswordSubscription [demoPwd] [] 7 99 demoCourse "PW1" 5 false false).pwds := by
  have h := password_redemption_activates_and_marks_used [demoPwd] [] 7 99 demoCourse
    "PW1" 5 demoPwd (by decide)
  exact ⟨h.1, h.2.2.1⟩

/-- Each draw below the pool size contributes exactly one character, taken
from the pool. -/
theorem jsCharAt_spec (i : Nat) (h : i < 36) :
    (jsCharAt passwordChars i).length = 1 ∧
      ∀ c ∈ jsCharAt passwordChars i, c ∈ passwordChars.data := by
  have hlt : i < passwordChars.data.length := by
    have h36 : passwordChars.data.length = 36 := by decide
    omega
  unfold jsCharAt
  cases hg : passwordChars.data.get? i with
  | none =>
    rw [List.get?_eq_none] at hg
    omega
  | some c =>
    refine ⟨rfl, ?_⟩
    intro c2 hc2
    simp only [List.mem_singleton] at hc2
    subst hc2
    exact List.get?_mem hg

/-- The generated password has eight characters, all from the pool, as long
as every random draw lies below the pool size. -/
theorem generateRandomPassword_spec (rand : Nat → Nat)
    (h : ∀ i, i < 8 → rand i < 36) :
    (generateRandomPassword rand).length = 8 ∧
      ∀ c ∈ (generateRandomPassword rand).data, c ∈ passwordChars.data := by
  have hone : ∀ i, i < 8 → (jsCharAt passwordChars (rand i)).length = 1 ∧
      ∀ c ∈ jsCharAt passwordChars (rand i), c ∈ passwordChars.data :=
    fun i hi => jsCharAt_spec (rand i) (h i hi)
  have hr : List.range 8 = [0, 1, 2, 3, 4, 5, 6, 7] := by decide
  unfold generateRandomPassword
  rw [hr]
  simp only [List.map_cons, List.map_nil, List.flatten_cons, List.flatten_nil,
    List.append_nil]
  constructor
  · show (List.length _) = 8
    simp only [List.length_append]
    have h0 := (hone 0 (by omega)).1
    have h1 := (hone 1 (by omega)).1
    have h2 := (hone 2 (by omega)).1
    have h3 := (hone 3 (by omega)).1
    have h4 := (hone 4 (by omega)).1
    have h5 := (hone 5 (by omega)).1
    have h6 := (hone 6 (by omega)).1
    have h7 := (hone 7 (by omega)).1
    omega
  · intro c hc
    simp only [List.mem_append] at hc
    rcases hc with h' | h' | h' | h' | h' | h' | h' | h'
    · exact (hone 0 (by omega)).2 c h'
    · exact (hone 1 (by omega)).2 c h'
    · exact (hone 2 (by omega)).2 c h'
    · exact (hone 3 (by omega)).2 c h'
    · exact (hone 4 (by omega)).2 c h'
    · exact (hone 5 (by omega)).2 c h'
    · exact (hone 6 (by omega)).2 c h'
    · exact (hone 7 (by omega)).2 c h'

/-- Claim C10: every minted password row is created unused with expiry
exactly seven days after its creation time (the insert supplies neither
column, so the migration defaults apply), and with no custom password the
stored password is eight characters drawn from the uppercase letters and
digits. -/
theorem password_minting_defaults_and_alphabet (pwds : List CoursePassword)
    (freshId cid : Nat) (customPassword : String) (rand : Nat → Nat) (now : Int)
    (hrand : ∀ i, i < 8 → rand i < 36) :
    (createPassword pwds freshId cid customPassword rand now).length = pwds.length + 1 ∧
    ∀ row, (createPassword pwds freshId cid customPassword rand now).getLast? = some row →
      row.used = false ∧ row.created_at = now ∧ row.expires_at = row.created_at + 7 ∧
      (customPassword = "" → row.password.length = 8 ∧
        ∀ c ∈ row.password.data,
          ('A' ≤ c ∧ c ≤ 'Z') ∨ ('0' ≤ c ∧ c ≤ '9')) := by
  unfold createPassword
  constructor
  · simp
  · intro row hrow
    rw [List.getLast?_concat] at hrow
    simp only [Option.some.injEq] at hrow
    subst hrow
    refine ⟨rfl, rfl, rfl, ?_⟩
    intro hcustom
    subst hcustom
    have hspec := generateRandomPassword_spec rand hrand
    have hall : ∀ c ∈ passwordChars.data,
        ('A' ≤ c ∧ c ≤ 'Z') ∨ ('0' ≤ c ∧ c ≤ '9') := by decide
    exact ⟨hspec.1, fun c hc => hall c (hspec.2 c hc)⟩

/-- The password row minted with constant zero draws at day 100. -/
def mintDemoRow : CoursePassword :=
  { id := 9, course_id := 5, password := "AAAAAAAA", used := false,
    created_at := 100, expires_at := 107 }

/-- Witness for claim C10 at a concrete input. -/
theorem password_minting_defaults_and_alphabet_witness :
    mintDemoRow.used = false ∧ mintDemoRow.password.length = 8 := by
  have h := (password_minting_defaults_and_alphabet [] 9 5 "" (fun _ => 0) 100
    (by intro i hi; show (0 : Nat) < 36; decide)).2 mintDemoRow (by decide)
  exact ⟨h.1, (h.2.2.2 rfl).1⟩

end LearnLockBox
